import Mathlib

/-!
Shallow embedding of the two-stage product-image pipeline
(`src/input/image_processing.py` and `src/anyalize.py`).

Pure Python functions become Lean functions; filesystem and network
effects are made explicit: the normalization stage is modelled as a
state transformer on a `NormState` (files written so far, ledger rows
appended so far), with per-operation success oracles carried on each
source file, and exceptions modelled by `Except`.  Python strings are
modelled by Lean `String`; Python's `str.endswith` is suffix testing on
the character sequence, embedded as `List.isSuffixOf` on `String.data`.
-/

namespace Anyalize

/-- Embedding of Python `s.endswith(suffix)`: `suffix` is a suffix of `s`
as a character sequence. -/
def pyEndsWith (s suffix : String) : Bool :=
  suffix.data.isSuffixOf s.data

/-- Embedding of Python `s.lower()`: lowercase each character (the strings
appearing in this program are ASCII). -/
def pyLower (s : String) : String :=
  String.mk (s.data.map Char.toLower)

/-- `CATEGORY_SKU_MAPPING` from `src/anyalize.py` lines 24-41: the static
category table, an exact-key mapping from lowercase category phrase to SKU. -/
def CATEGORY_SKU_MAPPING : List (String × String) :=
  [("fine jewelry", "4196"),
   ("engagement & wedding", "1643"),
   ("fine earrings", "10986"),
   ("fine necklaces & pendants", "164329"),
   ("fine rings", "164343"),
   ("fine bracelets", "164315"),
   ("fashion jewelry", "10968"),
   ("fashion bracelets", "50637"),
   ("fashion earrings", "50647"),
   ("fashion necklaces & pendants", "155101"),
   ("fashion rings", "67681"),
   ("vintage & antique jewelry", "48579"),
   ("vintage & antique bracelets", "10183"),
   ("vintage & antique earrings", "10192"),
   ("vintage & antique necklaces & pendants", "10120"),
   ("vintage & antique rings", "10196")]

/-- `get_sku_from_keywords` from `src/anyalize.py` lines 55-60: scan the
keywords in order, lowercase each, return the SKU of the first one that is
a key of the table, else the sentinel. -/
def get_sku_from_keywords : List String → String
  | [] => "DEFAULT-SKU"
  | keyword :: rest =>
    match CATEGORY_SKU_MAPPING.lookup (pyLower keyword) with
    | some sku => sku
    | none => get_sku_from_keywords rest

/-- Outcome of `ebay_api.execute('AddItem', ...)` in `upload_to_ebay`
(`src/anyalize.py` line 162): the SDK either returns a reply whose `Ack`
field is a string, or raises a transport error. -/
inductive EbayResult where
  | reply (ack : String)
  | transportError (msg : String)
deriving DecidableEq, Repr

/-- What `upload_to_ebay` logs when it returns normally. -/
inductive UploadLog where
  | successLogged
  | failureLogged
deriving DecidableEq, Repr

/-- `upload_to_ebay` from `src/anyalize.py` lines 113-166.  The item payload
reads `specifics['category_id']` (a `KeyError` raises if absent); the SDK call
has no surrounding try/except, so a raised transport error propagates; a
returned reply is tested for `Ack == 'Success'` and logged either way. -/
def upload_to_ebay (specifics : List (String × String)) (res : EbayResult) :
    Except String UploadLog :=
  match specifics.lookup "category_id" with
  | none => Except.error "KeyError: category_id"
  | some _ =>
    match res with
    | EbayResult.reply ack =>
      if ack = "Success" then Except.ok UploadLog.successLogged
      else Except.ok UploadLog.failureLogged
    | EbayResult.transportError m => Except.error m

/-- The image filter of `process_folder` (`src/anyalize.py` line 87):
`f.lower().endswith(('jpg', 'jpeg', 'png'))`. -/
def listingSupported (f : String) : Bool :=
  pyEndsWith (pyLower f) "jpg" || pyEndsWith (pyLower f) "jpeg" ||
    pyEndsWith (pyLower f) "png"

/-- Environment oracle for the external collaborators reached from
`process_folder`: the two Rekognition calls (which may raise), the OpenAI
call (which may raise), the `json.loads` + field extraction of its output
(`none` = `JSONDecodeError`/`KeyError` raises), the template read, and the
eBay SDK call. -/
structure ListingEnv where
  rekognition : Except String (List String)
  genOut : Except String String
  parsed : Option (String × String × List (String × String))
  templateOk : Bool
  ebay : EbayResult
deriving Repr

/-- Observable result of one `process_folder` call: how many times
`logging.error` ran, which image paths were selected for analysis, which
output files were written, how many external service calls were made, and
whether an exception escaped to the per-folder handler in `main`. -/
structure FolderResult where
  errorsLogged : Nat
  selected : List String
  outputFiles : List String
  externalCalls : Nat
  raised : Option String
deriving DecidableEq, Repr

/-- The pipeline run by `process_folder` after its image-count guard
(`src/anyalize.py` lines 92-111): Rekognition on the two selected paths,
SKU resolution, text generation, parsing, template fill, HTML write, then
`upload_to_ebay`. -/
def runPipeline (image_paths : List String) (env : ListingEnv) : FolderResult :=
  match env.rekognition with
  | Except.error e => ⟨0, image_paths, [], 1, some e⟩
  | Except.ok keywords =>
    let sku := get_sku_from_keywords keywords
    match env.genOut with
    | Except.error e => ⟨0, image_paths, [], 3, some e⟩
    | Except.ok _ =>
      match env.parsed with
      | none => ⟨0, image_paths, [], 3, some "JSONDecodeError or KeyError"⟩
      | some td =>
        if env.templateOk then
          let out := sku ++ "_listing.html"
          match upload_to_ebay td.2.2 env.ebay with
          | Except.ok UploadLog.successLogged => ⟨0, image_paths, [out], 4, none⟩
          | Except.ok UploadLog.failureLogged => ⟨1, image_paths, [out], 4, none⟩
          | Except.error m => ⟨0, image_paths, [out], 4, some m⟩
        else ⟨0, image_paths, [], 3, some "template IOError"⟩

/-- `process_folder` from `src/anyalize.py` lines 86-111: filter the folder
listing by the supported-image test; with fewer than two matches log one
error and return (no output, no external call); otherwise run the pipeline
on exactly the first two matches. -/
def process_folder (files : List String) (env : ListingEnv) : FolderResult :=
  let image_files := files.filter listingSupported
  if image_files.length < 2 then ⟨1, [], [], 0, none⟩
  else runPipeline (image_files.take 2) env

end Anyalize

namespace Anyalize

theorem get_sku_eq_headD (kws : List String) :
    get_sku_from_keywords kws =
      (kws.filterMap (fun k => CATEGORY_SKU_MAPPING.lookup (pyLower k))).headD
        "DEFAULT-SKU" := by
  induction kws with
  | nil => rfl
  | cons k rest ih =>
    simp only [get_sku_from_keywords, List.filterMap_cons]
    cases h : CATEGORY_SKU_MAPPING.lookup (pyLower k) with
    | none => simpa [h] using ih
    | some sku => simp [h]

theorem runPipeline_selected (ps : List String) (env : ListingEnv) :
    (runPipeline ps env).selected = ps := by
  unfold runPipeline
  cases h1 : env.rekognition with
  | error e => rfl
  | ok kws =>
    cases h2 : env.genOut with
    | error e => rfl
    | ok t =>
      cases h3 : env.parsed with
      | none => rfl
      | some td =>
        by_cases h4 : env.templateOk
        · simp only [h4, if_true]
          cases h5 : upload_to_ebay td.2.2 env.ebay with
          | ok l => cases l <;> rfl
          | error m => rfl
        · simp [h4]

/-- C2: the Category Resolver `get_sku_from_keywords` returns the SKU mapped
to the first keyword whose lowercased form exactly equals a key of the
static table (first exact match wins, via key lookup, no substring
matching), returns the sentinel "DEFAULT-SKU" when no keyword matches, and
is a pure function of the keyword sequence and the table; in particular on
["Ring", "Fine Rings"] it skips "ring" (not a key) and resolves
"fine rings" to "164343". -/
theorem c2_category_resolver_first_exact_match (kws : List String) :
    get_sku_from_keywords kws =
      (kws.filterMap (fun k => CATEGORY_SKU_MAPPING.lookup (pyLower k))).headD
        "DEFAULT-SKU" ∧
    ((∀ k ∈ kws, CATEGORY_SKU_MAPPING.lookup (pyLower k) = none) →
      get_sku_from_keywords kws = "DEFAULT-SKU") ∧
    get_sku_from_keywords ["Ring", "Fine Rings"] = "164343" := by
  refine ⟨get_sku_eq_headD kws, ?_, by decide⟩
  intro h
  rw [get_sku_eq_headD]
  have hnil : kws.filterMap (fun k => CATEGORY_SKU_MAPPING.lookup (pyLower k)) = [] := by
    rw [List.filterMap_eq_nil_iff]
    exact h
  rw [hnil]
  rfl

/-- Witness for C2 at a concrete no-match input. -/
theorem c2_witness : get_sku_from_keywords ["Sapphire"] = "DEFAULT-SKU" :=
  (c2_category_resolver_first_exact_match ["Sapphire"]).2.1 (by decide)

/-- C3: for every folder listing, if fewer than two files pass the
supported-image filter then `process_folder` returns after logging exactly
one error, with no selected images, no output file, no external call and no
escaping exception; otherwise it selects exactly the first two files that
pass the filter for analysis. -/
theorem c3_listing_walker_skips_small_folders (files : List String)
    (env : ListingEnv) :
    ((files.filter listingSupported).length < 2 →
      process_folder files env = ⟨1, [], [], 0, none⟩) ∧
    (2 ≤ (files.filter listingSupported).length →
      (process_folder files env).selected =
        (files.filter listingSupported).take 2) := by
  constructor
  · intro h
    unfold process_folder
    simp only [h, if_true]
  · intro h
    unfold process_folder
    rw [if_neg (by omega)]
    exact runPipeline_selected _ _

/-- Witness for C3: a folder with one supported image is skipped with one
logged error, and a folder with three supported images selects the first
two. -/
theorem c3_witness :
    process_folder ["a.jpg", "notes.txt"]
      ⟨Except.ok [], Except.ok "", none, true, EbayResult.reply "Success"⟩ =
      ⟨1, [], [], 0, none⟩ ∧
    (process_folder ["a.jpg", "b.png", "c.jpeg"]
      ⟨Except.ok [], Except.ok "", none, true, EbayResult.reply "Success"⟩).selected =
      ["a.jpg", "b.png"] := by
  constructor
  · exact (c3_listing_walker_skips_small_folders ["a.jpg", "notes.txt"] _).1
      (by decide)
  · have h := (c3_listing_walker_skips_small_folders ["a.jpg", "b.png", "c.jpeg"]
      ⟨Except.ok [], Except.ok "", none, true, EbayResult.reply "Success"⟩).2
      (by decide)
    rw [h]
    decide

/-- C7 counterexample: a transport error raised by the eBay SDK call is not
caught inside `upload_to_ebay`; at this concrete input the publisher
propagates the exception to its caller instead of returning. -/
theorem c7_cex :
    upload_to_ebay [("category_id", "281")]
      (EbayResult.transportError "ConnectionError") =
      Except.error "ConnectionError" := rfl

/-- C7 amended: when the item specifics carry a category id, a reply
acknowledgement — success or not — is only logged and `upload_to_ebay`
returns without raising, but a transport error raised by the SDK call
propagates to the caller (where the per-folder handler of `main` catches
it). -/
theorem c7_amended_publisher_error_handling (sp : List (String × String))
    (c ack m : String) (h : sp.lookup "category_id" = some c) :
    upload_to_ebay sp (EbayResult.reply ack) =
      Except.ok (if ack = "Success" then UploadLog.successLogged
                 else UploadLog.failureLogged) ∧
    upload_to_ebay sp (EbayResult.transportError m) = Except.error m := by
  unfold upload_to_ebay
  rw [h]
  refine ⟨?_, rfl⟩
  by_cases hA : ack = "Success" <;> simp [hA]

/-- Witness for the amended C7 at a concrete non-success acknowledgement
and a concrete transport error. -/
theorem c7_witness :
    upload_to_ebay [("category_id", "281")] (EbayResult.reply "Failure") =
      Except.ok (if "Failure" = "Success" then UploadLog.successLogged
                 else UploadLog.failureLogged) ∧
    upload_to_ebay [("category_id", "281")] (EbayResult.transportError "E") =
      Except.error "E" :=
  c7_amended_publisher_error_handling [("category_id", "281")] "281"
    "Failure" "E" (by decide)

/-- Concrete environment used to demonstrate the C10 selection behavior. -/
def envDemo : ListingEnv :=
  ⟨Except.ok ["Fine Rings"], Except.ok "",
   some ("T", "D", [("category_id", "281")]), true, EbayResult.reply "Success"⟩

/-- C10: the supported-image filter of the Listing Batch Walker classifies a
file as supported exactly when its lowercased name ends with the character
sequence "jpg", "jpeg" or "png", with no dot separator required; the
dot-free name "photojpg" passes the filter and is selected as one of the
two images to analyze. -/
theorem c10_filter_needs_no_dot (f : String) :
    (listingSupported f = true ↔
      (['j', 'p', 'g'] <:+ (pyLower f).data ∨
       ['j', 'p', 'e', 'g'] <:+ (pyLower f).data ∨
       ['p', 'n', 'g'] <:+ (pyLower f).data)) ∧
    listingSupported "photojpg" = true ∧
    "photojpg".data.all (fun c => c ≠ '.') = true ∧
    (process_folder ["photojpg", "b.png"] envDemo).selected =
      ["photojpg", "b.png"] := by
  refine ⟨?_, by decide, by decide, by decide⟩
  unfold listingSupported pyEndsWith
  rw [show "jpg".data = ['j', 'p', 'g'] from rfl,
      show "jpeg".data = ['j', 'p', 'e', 'g'] from rfl,
      show "png".data = ['p', 'n', 'g'] from rfl]
  simp [List.isSuffixOf_iff_suffix, or_assoc]

end Anyalize

namespace ImgProc

/-- `SUPPORTED_IMAGE_TYPES` from `src/input/image_processing.py` line 12. -/
def SUPPORTED_IMAGE_TYPES : List String :=
  [".heic", ".jpg", ".jpeg", ".png", ".tiff"]

/-- `TARGET_SIZE` from `src/input/image_processing.py` line 15. -/
def TARGET_SIZE : Nat × Nat := (1024, 768)

/-- Embedding of Python string formatting with a zero-padded minimum width,
as in the `:05d` and `:02d` format specs of `process_image`. -/
def padZero (w n : Nat) : String :=
  let s := toString n
  String.mk (List.replicate (w - s.length) '0') ++ s

/-- The output file name built at `src/input/image_processing.py` line 108:
`Product_<5-digit-id>_Image_<2-digit-index>.png`. -/
def outputFileName (product_id image_index : Nat) : String :=
  "Product_" ++ padZero 5 product_id ++ "_Image_" ++ padZero 2 image_index
    ++ ".png"

/-- Embedding of Python `os.path.splitext` on a bare file name (no path
separators): split at the last dot, unless every character before that dot
is itself a dot (then the extension is empty). -/
def splitext (name : String) : String × String :=
  let cs := name.data
  match ((List.range cs.length).filter
      (fun i => cs.getD i ' ' = '.')).getLast? with
  | none => (name, "")
  | some i =>
    if (List.range i).all (fun j => cs.getD j ' ' = '.') then (name, "")
    else (String.mk (cs.take i), String.mk (cs.drop i))

/-- Dimension effect of `rotate_image` (lines 35-49): EXIF orientation 3
rotates by 180 degrees (dimensions kept), orientations 6 and 8 rotate by
270 or 90 degrees with `expand=True` (dimensions swapped); missing or other
orientation data leaves the image unrotated. -/
def rotateDims (orient : Option Nat) (d : Nat × Nat) : Nat × Nat :=
  match orient with
  | some 3 => d
  | some 6 => (d.2, d.1)
  | some 8 => (d.2, d.1)
  | _ => d

/-- Dimension effect of `enhance_image` (lines 30-33): the 3x3 sharpening
convolution with `cv2.filter2D` preserves dimensions. -/
def enhanceDims (d : Nat × Nat) : Nat × Nat := d

/-- Dimension effect of `cv2.resize(..., TARGET_SIZE, ...)` at line 102. -/
def resizeDims (_ : Nat × Nat) : Nat × Nat := TARGET_SIZE

/-- Dimension effect of `add_watermark` (lines 51-72): the watermark layer is
created at `image.size` and alpha-composited, preserving dimensions. -/
def watermarkDims (d : Nat × Nat) : Nat × Nat := d

/-- A normalized image file written under the output root: name and
dimensions. -/
structure OutFile where
  name : String
  width : Nat
  height : Nat
deriving DecidableEq, Repr

/-- One row of the Metadata Ledger CSV, as written by
`update_metadata_file` (lines 24-28). -/
structure LedgerRow where
  productID : Nat
  fileName : String
  rowType : String
  width : Nat
  height : Nat
deriving DecidableEq, Repr

/-- Filesystem state of the normalization stage: extra files written beside
the sources by the conversion step, normalized output files written (one
entry per completed save), and ledger rows appended. -/
structure NormState where
  srcFiles : List String
  outFiles : List OutFile
  ledger : List LedgerRow
deriving DecidableEq, Repr

/-- The empty starting state, right after `initialize_metadata_file`. -/
def normInit : NormState := ⟨[], [], []⟩

/-- Outcome of `PIL.Image.open` inside `convert_to_supported_format`:
success, an `UnidentifiedImageError`, or some other raised error. -/
inductive OpenResult where
  | ok
  | unidentified
  | otherError
deriving DecidableEq, Repr

/-- One raw source file together with the outcomes of the fallible
operations the code performs on it: `openOk`/`convSaveOk` for the
conversion step, `decodeOk` for the decode in `process_image`, `dims` and
`orient` for the decoded pixel data, `saveOk` for the final save and
`metaOk` for the ledger append. -/
structure SrcFile where
  name : String
  openOk : OpenResult
  convSaveOk : Bool
  decodeOk : Bool
  dims : Nat × Nat
  orient : Option Nat
  saveOk : Bool
  metaOk : Bool
deriving DecidableEq, Repr

/-- `process_image` from `src/input/image_processing.py` lines 84-117: decode
(HEIC via pyheif, else `Image.open`; a `frombytes` image carries no EXIF),
rotate, sharpen, resize to `TARGET_SIZE`, watermark, save the PNG, then
append the ledger row; the whole body is wrapped in a blanket
try/except that logs and returns `False`.  Returns the success flag and the
new state. -/
def process_image (f : SrcFile) (product_id image_index : Nat)
    (image_type : String) (s : NormState) : Bool × NormState :=
  if f.decodeOk then
    let orient := if image_type = ".heic" then none else f.orient
    let dims := watermarkDims (resizeDims (enhanceDims (rotateDims orient f.dims)))
    let fname := outputFileName product_id image_index
    if f.saveOk then
      let s1 : NormState :=
        { s with outFiles := s.outFiles ++ [⟨fname, dims.1, dims.2⟩] }
      if f.metaOk then
        (true, { s1 with ledger := s1.ledger ++
          [⟨product_id, fname, image_type, dims.1, dims.2⟩] })
      else (false, s1)
    else (false, s)
  else (false, s)

/-- `convert_to_supported_format` from lines 74-82: open the file and save it
as PNG beside the source, returning the new path.  The except clause names
`UnidentifiedImageError`, which is never imported, so on ANY exception in
the body the handler itself raises `NameError`, which propagates; the
`return None` branch is unreachable.  The error value carries the raised
exception name and the state at the raise. -/
def convert_to_supported_format (f : SrcFile) (s : NormState) :
    Except (String × NormState) (String × NormState) :=
  match f.openOk with
  | OpenResult.ok =>
    if f.convSaveOk then
      let newName := (splitext f.name).1 ++ ".png"
      Except.ok (newName, { s with srcFiles := s.srcFiles ++ [newName] })
    else Except.error ("NameError", s)
  | OpenResult.unidentified => Except.error ("NameError", s)
  | OpenResult.otherError => Except.error ("NameError", s)

/-- The body of the per-file loop of `process_directory` (lines 133-144):
take the extension of the lowercased name; if unsupported, convert first
(an exception from the conversion propagates) and continue with type
`.png`; then run `process_image`. -/
def processOneFile (f : SrcFile) (product_id image_index : Nat)
    (s : NormState) : Except (String × NormState) (Bool × NormState) :=
  let file_ext := (splitext (Anyalize.pyLower f.name)).2
  if SUPPORTED_IMAGE_TYPES.contains file_ext then
    Except.ok (process_image f product_id image_index file_ext s)
  else
    match convert_to_supported_format f s with
    | Except.error e => Except.error e
    | Except.ok (_, s') =>
      Except.ok (process_image f product_id image_index ".png" s')

/-- The per-file loop of `process_directory`: thread the image index
(incremented only on successful processing) and the state through the
sorted file list; a raised exception aborts the remaining files. -/
def processFiles (files : List SrcFile) (product_id image_index : Nat)
    (s : NormState) : Except (String × NormState) (Nat × NormState) :=
  match files with
  | [] => Except.ok (image_index, s)
  | f :: rest =>
    match processOneFile f product_id image_index s with
    | Except.error e => Except.error e
    | Except.ok (ok, s') =>
      processFiles rest product_id (if ok then image_index + 1 else image_index) s'

/-- `process_directory` from lines 129-149: run the per-file loop starting
at image index 1 and report `processed_count` — 1 if at least one image
succeeded, else 0. -/
def process_directory (files : List SrcFile) (product_id : Nat)
    (s : NormState) : Except (String × NormState) (Nat × NormState) :=
  match processFiles files product_id 1 s with
  | Except.error e => Except.error e
  | Except.ok (idx, s') => Except.ok ((if 1 < idx then 1 else 0), s')

/-- The walk of `main` (lines 165-176): for each discovered directory, run
`process_directory` under a try/except; `product_id += 1` sits INSIDE the
try after the call, so a raised exception skips the increment.  Returns the
list of (product id the directory was invoked with, whether it completed
without exception), the final `processed_product_count`, and the final
state. -/
def mainWalk (dirs : List (List SrcFile)) (product_id count : Nat)
    (s : NormState) : List (Nat × Bool) × Nat × NormState :=
  match dirs with
  | [] => ([], count, s)
  | d :: rest =>
    match process_directory d product_id s with
    | Except.ok (pc, s') =>
      let r := mainWalk rest (product_id + 1) (count + pc) s'
      ((product_id, true) :: r.1, r.2)
    | Except.error (_, s') =>
      let r := mainWalk rest product_id count s'
      ((product_id, false) :: r.1, r.2)

end ImgProc

namespace ImgProc

/-- Concrete file used in several evaluations: a well-formed JPEG that every
operation handles successfully. -/
def goodA : SrcFile :=
  ⟨"a.jpg", OpenResult.ok, true, true, (640, 480), none, true, true⟩

/-- Concrete file with an unsupported extension whose bytes PIL cannot
identify: `Image.open` raises `UnidentifiedImageError` inside the
conversion step. -/
def badGif : SrcFile :=
  ⟨"photo.gif", OpenResult.unidentified, true, true, (640, 480), none, true, true⟩

/-- Concrete file with an unsupported extension that converts and processes
successfully. -/
def convGif : SrcFile :=
  ⟨"photo.gif", OpenResult.ok, true, true, (640, 480), none, true, true⟩

theorem process_image_eq (f : SrcFile) (pid idx : Nat) (t : String)
    (s : NormState) :
    process_image f pid idx t s =
      if f.decodeOk then
        if f.saveOk then
          if f.metaOk then
            (true, { s with
              outFiles := s.outFiles ++ [⟨outputFileName pid idx, 1024, 768⟩],
              ledger := s.ledger ++
                [⟨pid, outputFileName pid idx, t, 1024, 768⟩] })
          else (false, { s with
            outFiles := s.outFiles ++ [⟨outputFileName pid idx, 1024, 768⟩] })
        else (false, s)
      else (false, s) := rfl

/-- A ledger row records the name and dimensions of an output file. -/
def rowMatchedBy (r : LedgerRow) (fl : OutFile) : Prop :=
  r.fileName = fl.name ∧ r.width = fl.width ∧ r.height = fl.height

/-- `s2` extends `s` by some output files and some ledger rows, with no more
new rows than new files and every new row matching a new file. -/
def goodExt (s s2 : NormState) : Prop :=
  ∃ nf nr, s2.outFiles = s.outFiles ++ nf ∧ s2.ledger = s.ledger ++ nr ∧
    nr.length ≤ nf.length ∧ ∀ r ∈ nr, ∃ fl ∈ nf, rowMatchedBy r fl

theorem goodExt_refl (s : NormState) : goodExt s s :=
  ⟨[], [], by simp, by simp, by simp, by simp⟩

theorem goodExt_trans {s s2 s3 : NormState} (h1 : goodExt s s2)
    (h2 : goodExt s2 s3) : goodExt s s3 := by
  obtain ⟨nf1, nr1, ha1, hb1, hc1, hd1⟩ := h1
  obtain ⟨nf2, nr2, ha2, hb2, hc2, hd2⟩ := h2
  refine ⟨nf1 ++ nf2, nr1 ++ nr2, ?_, ?_, ?_, ?_⟩
  · rw [ha2, ha1, List.append_assoc]
  · rw [hb2, hb1, List.append_assoc]
  · simp only [List.length_append]; omega
  · intro r hr
    rcases List.mem_append.mp hr with h | h
    · obtain ⟨fl, hfl, hm⟩ := hd1 r h
      exact ⟨fl, List.mem_append.mpr (Or.inl hfl), hm⟩
    · obtain ⟨fl, hfl, hm⟩ := hd2 r h
      exact ⟨fl, List.mem_append.mpr (Or.inr hfl), hm⟩

theorem process_image_goodExt (f : SrcFile) (pid idx : Nat) (t : String)
    (s : NormState) : goodExt s (process_image f pid idx t s).2 := by
  rw [process_image_eq]
  by_cases h1 : f.decodeOk <;> by_cases h2 : f.saveOk <;>
    by_cases h3 : f.metaOk <;>
    simp only [h1, h2, h3, if_true, if_false, Bool.false_eq_true]
  · exact ⟨[⟨outputFileName pid idx, 1024, 768⟩],
      [⟨pid, outputFileName pid idx, t, 1024, 768⟩], rfl, rfl, le_refl 1,
      by intro r hr; simp at hr; subst hr
         exact ⟨⟨outputFileName pid idx, 1024, 768⟩, by simp, rfl, rfl, rfl⟩⟩
  · exact ⟨[⟨outputFileName pid idx, 1024, 768⟩], [], rfl, by simp, by simp,
      by simp⟩
  · exact goodExt_refl s
  · exact goodExt_refl s
  · exact goodExt_refl s
  · exact goodExt_refl s
  · exact goodExt_refl s
  · exact goodExt_refl s

theorem convert_preserves (f : SrcFile) (s : NormState) :
    (∀ e s2, convert_to_supported_format f s = Except.error (e, s2) →
      s2 = s) ∧
    (∀ p s2, convert_to_supported_format f s = Except.ok (p, s2) →
      s2.outFiles = s.outFiles ∧ s2.ledger = s.ledger ∧
      s2.srcFiles = s.srcFiles ++ [(splitext f.name).1 ++ ".png"]) := by
  unfold convert_to_supported_format
  cases f.openOk with
  | ok =>
    by_cases h : f.convSaveOk <;> simp only [h, if_true, if_false]
    · constructor
      · intro e s2 hx; cases hx
      · intro p s2 hx
        injection hx with hx
        injection hx with hp hs
        subst hs; exact ⟨rfl, rfl, rfl⟩
    · constructor
      · intro e s2 hx
        injection hx with hx
        injection hx with he hs
        exact hs.symm
      · intro p s2 hx; cases hx
  | unidentified =>
    constructor
    · intro e s2 hx
      injection hx with hx
      injection hx with he hs
      exact hs.symm
    · intro p s2 hx; cases hx
  | otherError =>
    constructor
    · intro e s2 hx
      injection hx with hx
      injection hx with he hs
      exact hs.symm
    · intro p s2 hx; cases hx

theorem processOneFile_goodExt (f : SrcFile) (pid idx : Nat) (s : NormState) :
    (∀ e s2, processOneFile f pid idx s = Except.error (e, s2) → s2 = s) ∧
    (∀ b s2, processOneFile f pid idx s = Except.ok (b, s2) → goodExt s s2) := by
  unfold processOneFile
  by_cases hext : SUPPORTED_IMAGE_TYPES.contains
      (splitext (Anyalize.pyLower f.name)).2 <;>
    simp only [hext, if_true, if_false, Bool.false_eq_true]
  · constructor
    · intro e s2 hx; cases hx
    · intro b s2 hx
      injection hx with hx
      have h2 : s2 = (process_image f pid idx
          (splitext (Anyalize.pyLower f.name)).2 s).2 := by
        rw [hx]
      rw [h2]
      exact process_image_goodExt _ _ _ _ _
  · cases hc : convert_to_supported_format f s with
    | error e =>
      obtain ⟨m, se⟩ := e
      constructor
      · intro e2 s2 hx
        injection hx with hx
        injection hx with he hs
        subst hs
        exact ((convert_preserves f s).1 m se hc)
      · intro b s2 hx; cases hx
    | ok p =>
      obtain ⟨nm, s1⟩ := p
      have hpres := (convert_preserves f s).2 nm s1 hc
      constructor
      · intro e s2 hx; cases hx
      · intro b s2 hx
        injection hx with hx
        have h2 : s2 = (process_image f pid idx ".png" s1).2 := by rw [hx]
        rw [h2]
        refine goodExt_trans ?_ (process_image_goodExt f pid idx ".png" s1)
        exact ⟨[], [], by simp [hpres.1], by simp [hpres.2.1], by simp, by simp⟩

theorem processFiles_goodExt (files : List SrcFile) (pid : Nat) :
    ∀ (idx : Nat) (s : NormState),
    (∀ e s2, processFiles files pid idx s = Except.error (e, s2) →
      goodExt s s2) ∧
    (∀ n s2, processFiles files pid idx s = Except.ok (n, s2) →
      goodExt s s2) := by
  induction files with
  | nil =>
    intro idx s
    constructor
    · intro e s2 hx; cases hx
    · intro n s2 hx
      injection hx with hx
      injection hx with hn hs
      subst hs; exact goodExt_refl _
  | cons f rest ih =>
    intro idx s
    simp only [processFiles]
    cases hf : processOneFile f pid idx s with
    | error e =>
      obtain ⟨m, se⟩ := e
      have hse : se = s := (processOneFile_goodExt f pid idx s).1 m se hf
      constructor
      · intro e2 s2 hx
        injection hx with hx
        injection hx with he hs
        subst hs; subst hse; exact goodExt_refl _
      · intro n s2 hx; cases hx
    | ok p =>
      obtain ⟨b, s1⟩ := p
      have h1 : goodExt s s1 := (processOneFile_goodExt f pid idx s).2 b s1 hf
      constructor
      · intro e s2 hx
        exact goodExt_trans h1
          ((ih (if b then idx + 1 else idx) s1).1 e s2 hx)
      · intro n s2 hx
        exact goodExt_trans h1
          ((ih (if b then idx + 1 else idx) s1).2 n s2 hx)

theorem process_directory_goodExt (files : List SrcFile) (pid : Nat)
    (s : NormState) :
    (∀ e s2, process_directory files pid s = Except.error (e, s2) →
      goodExt s s2) ∧
    (∀ n s2, process_directory files pid s = Except.ok (n, s2) →
      goodExt s s2) := by
  unfold process_directory
  cases hf : processFiles files pid 1 s with
  | error e =>
    obtain ⟨m, se⟩ := e
    constructor
    · intro e2 s2 hx
      injection hx with hx
      injection hx with he hs
      subst hs
      exact (processFiles_goodExt files pid 1 s).1 m se hf
    · intro n s2 hx; cases hx
  | ok p =>
    obtain ⟨idx, s1⟩ := p
    constructor
    · intro e s2 hx; cases hx
    · intro n s2 hx
      injection hx with hx
      injection hx with hn hs
      subst hs
      exact (processFiles_goodExt files pid 1 s).2 idx s1 hf

theorem mainWalk_goodExt (dirs : List (List SrcFile)) :
    ∀ (pid count : Nat) (s : NormState),
    goodExt s (mainWalk dirs pid count s).2.2 := by
  induction dirs with
  | nil => intro pid count s; exact goodExt_refl s
  | cons d rest ih =>
    intro pid count s
    simp only [mainWalk]
    cases hd : process_directory d pid s with
    | ok p =>
      obtain ⟨pc, s1⟩ := p
      exact goodExt_trans
        ((process_directory_goodExt d pid s).2 pc s1 hd)
        (ih (pid + 1) (count + pc) s1)
    | error e =>
      obtain ⟨m, s1⟩ := e
      exact goodExt_trans
        ((process_directory_goodExt d pid s).1 m s1 hd)
        (ih pid count s1)

end ImgProc

namespace ImgProc

theorem mainWalk_ids (dirs : List (List SrcFile)) :
    ∀ (pid count : Nat) (s : NormState),
    (mainWalk dirs pid count s).1.length = dirs.length ∧
    ∀ i, i < dirs.length →
      ((mainWalk dirs pid count s).1.getD i (0, false)).1 =
        pid + (((mainWalk dirs pid count s).1.take i).filter
          (fun p => p.2)).length := by
  induction dirs with
  | nil =>
    intro pid count s
    exact ⟨rfl, fun i h => absurd h (by simp)⟩
  | cons d rest ih =>
    intro pid count s
    cases hd : process_directory d pid s with
    | ok p =>
      obtain ⟨pc, s1⟩ := p
      have hm : (mainWalk (d :: rest) pid count s).1 =
          (pid, true) :: (mainWalk rest (pid + 1) (count + pc) s1).1 := by
        simp [mainWalk, hd]
      rw [hm]
      refine ⟨by simp [(ih (pid + 1) (count + pc) s1).1], ?_⟩
      intro i hi
      cases i with
      | zero => simp
      | succ j =>
        have hj : j < rest.length := by simpa using hi
        have hrec := (ih (pid + 1) (count + pc) s1).2 j hj
        simp only [List.getD_cons_succ, List.take_succ_cons, List.filter_cons]
        rw [hrec]
        simp
        omega
    | error e =>
      obtain ⟨m, s1⟩ := e
      have hm : (mainWalk (d :: rest) pid count s).1 =
          (pid, false) :: (mainWalk rest pid count s1).1 := by
        simp [mainWalk, hd]
      rw [hm]
      refine ⟨by simp [(ih pid count s1).1], ?_⟩
      intro i hi
      cases i with
      | zero => simp
      | succ j =>
        have hj : j < rest.length := by simpa using hi
        have hrec := (ih pid count s1).2 j hj
        simp only [List.getD_cons_succ, List.take_succ_cons, List.filter_cons]
        rw [hrec]
        simp

/-- C1 counterexample: with a first directory whose processing raises (an
unidentified `.gif` makes the conversion step raise `NameError`) and a
well-formed second directory, the walk invokes the first directory with
product id 1 and — because `product_id += 1` sits inside the `try` after
the raising call — the second directory is invoked with id 1 again: the
assigned ids are [1, 1], not strictly increasing, and the counter did not
advance for the failed directory. -/
theorem c1_cex :
    (mainWalk [[badGif], [goodA]] 1 0 normInit).1 = [(1, false), (1, true)] ∧
    ¬ List.Pairwise (fun a b => a < b)
        ((mainWalk [[badGif], [goodA]] 1 0 normInit).1.map Prod.fst) := by
  constructor
  · decide
  · decide

/-- C1 corrected: the Batch Directory Walker invokes `process_directory`
once per discovered directory (an exception is caught and the walk
continues: exactly as many invocations as directories), and the product id
a directory is invoked with equals 1 plus the number of earlier directories
that completed without exception — the id advances exactly for successful
directories, so a failed directory's id is reused by the next one. -/
theorem c1_amended_walk_id_assignment (dirs : List (List SrcFile))
    (s : NormState) (i : Nat) (h : i < dirs.length) :
    (mainWalk dirs 1 0 s).1.length = dirs.length ∧
    ((mainWalk dirs 1 0 s).1.getD i (0, false)).1 =
      1 + (((mainWalk dirs 1 0 s).1.take i).filter (fun p => p.2)).length :=
  ⟨(mainWalk_ids dirs 1 0 s).1, (mainWalk_ids dirs 1 0 s).2 i h⟩

/-- Witness for the amended C1 at the concrete two-directory walk. -/
theorem c1_witness :
    (mainWalk [[badGif], [goodA]] 1 0 normInit).1.length =
      [[badGif], [goodA]].length ∧
    ((mainWalk [[badGif], [goodA]] 1 0 normInit).1.getD 1 (0, false)).1 =
      1 + (((mainWalk [[badGif], [goodA]] 1 0 normInit).1.take 1).filter
        (fun p => p.2)).length :=
  c1_amended_walk_id_assignment [[badGif], [goodA]] normInit 1 (by decide)

/-- C4: every successful `process_image` run appends exactly one output
image whose dimensions equal the fixed target resolution
`TARGET_SIZE = (1024, 768)`, regardless of the source file's dimensions,
orientation metadata, or type. -/
theorem c4_output_dims_equal_target (f : SrcFile) (pid idx : Nat)
    (t : String) (s : NormState)
    (h : (process_image f pid idx t s).1 = true) :
    (process_image f pid idx t s).2.outFiles =
      s.outFiles ++ [⟨outputFileName pid idx, TARGET_SIZE.1, TARGET_SIZE.2⟩] ∧
    TARGET_SIZE = (1024, 768) := by
  refine ⟨?_, rfl⟩
  rw [process_image_eq] at h ⊢
  by_cases h1 : f.decodeOk <;> by_cases h2 : f.saveOk <;>
    by_cases h3 : f.metaOk <;> simp_all [TARGET_SIZE]

/-- Witness for C4 at a concrete 640x480 JPEG. -/
theorem c4_witness :
    (process_image goodA 1 1 ".jpg" normInit).2.outFiles =
      normInit.outFiles ++
        [⟨outputFileName 1 1, TARGET_SIZE.1, TARGET_SIZE.2⟩] ∧
    TARGET_SIZE = (1024, 768) :=
  c4_output_dims_equal_target goodA 1 1 ".jpg" normInit (by decide)

/-- C6: the claim describes the intended behavior (a failed conversion is
logged and the file skipped, processing continuing), and the code's own
handler (`except UnidentifiedImageError ... return None`, with the caller
checking for `None`) shows that intent — but `UnidentifiedImageError` is
never imported, so evaluating the except clause raises `NameError`, which
escapes `convert_to_supported_format` and aborts the directory.  Evaluated
at the failing input: a directory holding an unidentifiable `.gif` followed
by a well-formed `.jpg` raises out of `process_directory` with the state
untouched — the second file is never processed. -/
theorem c6_conversion_bug_eval :
    convert_to_supported_format badGif normInit =
      Except.error ("NameError", normInit) ∧
    process_directory [badGif, goodA] 1 normInit =
      Except.error ("NameError", normInit) := by
  exact ⟨rfl, rfl⟩

end ImgProc

namespace ImgProc

/-- The C5 invariant: no more ledger rows than output files, and every row
matches some written file by name and dimensions. -/
def ledgerBounded (s : NormState) : Prop :=
  s.ledger.length ≤ s.outFiles.length ∧
    ∀ r ∈ s.ledger, ∃ fl ∈ s.outFiles, rowMatchedBy r fl

theorem ledgerBounded_of_goodExt {s s2 : NormState} (h : ledgerBounded s)
    (hg : goodExt s s2) : ledgerBounded s2 := by
  obtain ⟨nf, nr, ha, hb, hc, hd⟩ := hg
  constructor
  · rw [ha, hb]
    have h1 := h.1
    simp only [List.length_append]
    omega
  · intro r hr
    rw [hb] at hr
    rcases List.mem_append.mp hr with hh | hh
    · obtain ⟨fl, hfl, hm⟩ := h.2 r hh
      exact ⟨fl, by rw [ha]; exact List.mem_append.mpr (Or.inl hfl), hm⟩
    · obtain ⟨fl, hfl, hm⟩ := hd r hh
      exact ⟨fl, by rw [ha]; exact List.mem_append.mpr (Or.inr hfl), hm⟩

/-- C5: a ledger row is appended only together with (and after) a completed
image save — in every `process_image` call the new rows number at most the
new files and every new row matches a new file by name and dimensions, a
successful call appends exactly one file and one matching row, and across a
whole batch walk the ledger row count never exceeds the output file
count. -/
theorem c5_ledger_row_per_written_image (f : SrcFile) (pid idx : Nat)
    (t : String) (s : NormState) (dirs : List (List SrcFile))
    (pid2 count : Nat) (s2 : NormState) (hs : ledgerBounded s2) :
    (∃ nf nr,
      (process_image f pid idx t s).2.outFiles = s.outFiles ++ nf ∧
      (process_image f pid idx t s).2.ledger = s.ledger ++ nr ∧
      nr.length ≤ nf.length ∧
      (∀ r ∈ nr, ∃ fl ∈ nf, rowMatchedBy r fl) ∧
      ((process_image f pid idx t s).1 = true →
        ∃ fl r, nf = [fl] ∧ nr = [r] ∧ rowMatchedBy r fl ∧
          fl.name = outputFileName pid idx ∧ fl.width = 1024 ∧
          fl.height = 768)) ∧
    ledgerBounded (mainWalk dirs pid2 count s2).2.2 := by
  refine ⟨?_, ledgerBounded_of_goodExt hs (mainWalk_goodExt dirs pid2 count s2)⟩
  rw [process_image_eq]
  by_cases h1 : f.decodeOk <;> by_cases h2 : f.saveOk <;>
    by_cases h3 : f.metaOk <;>
    simp only [h1, h2, h3, if_true, if_false, Bool.false_eq_true]
  · refine ⟨[⟨outputFileName pid idx, 1024, 768⟩],
      [⟨pid, outputFileName pid idx, t, 1024, 768⟩], rfl, rfl, le_refl 1,
      ?_, ?_⟩
    · intro r hr
      simp only [List.mem_singleton] at hr
      subst hr
      exact ⟨⟨outputFileName pid idx, 1024, 768⟩, by simp, rfl, rfl, rfl⟩
    · intro _
      exact ⟨⟨outputFileName pid idx, 1024, 768⟩,
        ⟨pid, outputFileName pid idx, t, 1024, 768⟩, rfl, rfl,
        ⟨rfl, rfl, rfl⟩, rfl, rfl, rfl⟩
  · refine ⟨[⟨outputFileName pid idx, 1024, 768⟩], [], rfl, by simp, by simp,
      by simp, ?_⟩
    intro hx
    simp at hx
  · exact ⟨[], [], by simp, by simp, by simp, by simp, by intro hx; simp at hx⟩
  · exact ⟨[], [], by simp, by simp, by simp, by simp, by intro hx; simp at hx⟩
  · exact ⟨[], [], by simp, by simp, by simp, by simp, by intro hx; simp at hx⟩
  · exact ⟨[], [], by simp, by simp, by simp, by simp, by intro hx; simp at hx⟩
  · exact ⟨[], [], by simp, by simp, by simp, by simp, by intro hx; simp at hx⟩
  · exact ⟨[], [], by simp, by simp, by simp, by simp, by intro hx; simp at hx⟩

/-- Witness for C5 at a concrete successful image and one-directory walk. -/
theorem c5_witness :
    (∃ nf nr,
      (process_image goodA 1 1 ".jpg" normInit).2.outFiles =
        normInit.outFiles ++ nf ∧
      (process_image goodA 1 1 ".jpg" normInit).2.ledger =
        normInit.ledger ++ nr ∧
      nr.length ≤ nf.length ∧
      (∀ r ∈ nr, ∃ fl ∈ nf, rowMatchedBy r fl) ∧
      ((process_image goodA 1 1 ".jpg" normInit).1 = true →
        ∃ fl r, nf = [fl] ∧ nr = [r] ∧ rowMatchedBy r fl ∧
          fl.name = outputFileName 1 1 ∧ fl.width = 1024 ∧
          fl.height = 768)) ∧
    ledgerBounded (mainWalk [[goodA]] 1 0 normInit).2.2 :=
  c5_ledger_row_per_written_image goodA 1 1 ".jpg" normInit [[goodA]] 1 0
    normInit ⟨by simp [normInit], by simp [normInit]⟩

end ImgProc

namespace ImgProc

theorem mainWalk_head_fst (d : List SrcFile) (rest : List (List SrcFile))
    (pid c : Nat) (s : NormState) :
    ((mainWalk (d :: rest) pid c s).1.map Prod.fst).getD 0 0 = pid := by
  cases hd : process_directory d pid s with
  | ok p =>
    obtain ⟨pc, s1⟩ := p
    simp [mainWalk, hd]
  | error e =>
    obtain ⟨m, s1⟩ := e
    simp [mainWalk, hd]

theorem process_directory_single_ok (f : SrcFile) (pid : Nat) (s : NormState)
    (h1 : f.decodeOk = true) (h2 : f.saveOk = true) (h3 : f.metaOk = true)
    (h4 : SUPPORTED_IMAGE_TYPES.contains
      (splitext (Anyalize.pyLower f.name)).2 = true) :
    process_directory [f] pid s = Except.ok (1, { s with
      outFiles := s.outFiles ++ [⟨outputFileName pid 1, 1024, 768⟩],
      ledger := s.ledger ++ [⟨pid, outputFileName pid 1,
        (splitext (Anyalize.pyLower f.name)).2, 1024, 768⟩] }) := by
  have hp : process_image f pid 1 (splitext (Anyalize.pyLower f.name)).2 s =
      (true, { s with
        outFiles := s.outFiles ++ [⟨outputFileName pid 1, 1024, 768⟩],
        ledger := s.ledger ++ [⟨pid, outputFileName pid 1,
          (splitext (Anyalize.pyLower f.name)).2, 1024, 768⟩] }) := by
    rw [process_image_eq]
    simp [h1, h2, h3]
  simp only [process_directory, processFiles, processOneFile, h4, if_true, hp]
  norm_num

/-- C8 counterexample: a directory holding a single well-formed JPEG is NOT
skipped by the normalization-stage walk: it produces one output file and
one ledger row, and the summary count of processed products becomes 1. -/
theorem c8_cex :
    (mainWalk [[goodA]] 1 0 normInit).2.2 =
      ⟨[], [⟨"Product_00001_Image_01.png", 1024, 768⟩],
       [⟨1, "Product_00001_Image_01.png", ".jpg", 1024, 768⟩]⟩ ∧
    (mainWalk [[goodA]] 1 0 normInit).2.1 = 1 := by
  constructor
  · decide
  · decide

/-- C8 corrected: the normalization stage enforces no minimum image count —
only the listing stage does.  A folder with a single supported image that
processes successfully yields exactly one output file and one ledger row
(not zero), `process_directory` reports it as processed, and the product id
advances by one for the next folder. -/
theorem c8_amended_single_image_processed (f : SrcFile) (pid count : Nat)
    (s : NormState) (d : List SrcFile) (rest : List (List SrcFile))
    (h1 : f.decodeOk = true) (h2 : f.saveOk = true) (h3 : f.metaOk = true)
    (h4 : SUPPORTED_IMAGE_TYPES.contains
      (splitext (Anyalize.pyLower f.name)).2 = true) :
    process_directory [f] pid s = Except.ok (1, { s with
      outFiles := s.outFiles ++ [⟨outputFileName pid 1, 1024, 768⟩],
      ledger := s.ledger ++ [⟨pid, outputFileName pid 1,
        (splitext (Anyalize.pyLower f.name)).2, 1024, 768⟩] }) ∧
    ((mainWalk ([f] :: d :: rest) pid count s).1.map Prod.fst).getD 1 0 =
      pid + 1 := by
  have hd := process_directory_single_ok f pid s h1 h2 h3 h4
  refine ⟨hd, ?_⟩
  simp only [mainWalk, hd]
  simp only [List.map_cons, List.getD_cons_succ]
  exact mainWalk_head_fst d rest (pid + 1) _ _

/-- Witness for the amended C8 at a concrete single-JPEG folder followed by
an empty folder. -/
theorem c8_witness :
    process_directory [goodA] 1 normInit = Except.ok (1, { normInit with
      outFiles := normInit.outFiles ++ [⟨outputFileName 1 1, 1024, 768⟩],
      ledger := normInit.ledger ++ [⟨1, outputFileName 1 1,
        (splitext (Anyalize.pyLower goodA.name)).2, 1024, 768⟩] }) ∧
    ((mainWalk ([goodA] :: [] :: []) 1 0 normInit).1.map Prod.fst).getD 1 0 =
      1 + 1 :=
  c8_amended_single_image_processed goodA 1 0 normInit [] [] (by decide)
    (by decide) (by decide) (by decide)

end ImgProc

namespace ImgProc

/-- C9 counterexample: an unsupported-extension image that converts and
processes successfully yields — besides the one normalized PNG and its
ledger row — an extra converted PNG written beside the source file
(`srcFiles = ["photo.png"]`), contradicting "exactly one normalized PNG
file ... no extra files written anywhere". -/
theorem c9_cex :
    processOneFile convGif 1 1 normInit =
      Except.ok (true, ⟨["photo.png"],
        [⟨"Product_00001_Image_01.png", 1024, 768⟩],
        [⟨1, "Product_00001_Image_01.png", ".png", 1024, 768⟩]⟩) := rfl

/-- C9 corrected: each per-image call (conversion step included) either
raises out of the conversion step with the filesystem unchanged, or
completes; a completed successful call appends exactly one normalized PNG
at the target size and exactly one matching ledger row — plus, when the
source extension was unsupported, one converted intermediate PNG beside the
source file; a completed failed call appends no ledger row, but may leave
the converted intermediate and, when the failure hit the ledger append
after the save, the saved output file. -/
theorem c9_amended_per_image_contract (f : SrcFile) (pid idx : Nat)
    (s : NormState) :
    (∀ e s2, processOneFile f pid idx s = Except.error (e, s2) → s2 = s) ∧
    (∀ b s2, processOneFile f pid idx s = Except.ok (b, s2) →
      ∃ interm : List String,
        (interm = [] ∨ interm = [(splitext f.name).1 ++ ".png"]) ∧
        s2.srcFiles = s.srcFiles ++ interm ∧
        (b = true →
          s2.outFiles = s.outFiles ++
            [⟨outputFileName pid idx, 1024, 768⟩] ∧
          ∃ r, s2.ledger = s.ledger ++ [r] ∧
            r.fileName = outputFileName pid idx ∧ r.width = 1024 ∧
            r.height = 768) ∧
        (b = false →
          s2.ledger = s.ledger ∧
          (s2.outFiles = s.outFiles ∨
            s2.outFiles = s.outFiles ++
              [⟨outputFileName pid idx, 1024, 768⟩]))) := by
  refine ⟨(processOneFile_goodExt f pid idx s).1, ?_⟩
  intro b s2 hx
  unfold processOneFile at hx
  by_cases hext : SUPPORTED_IMAGE_TYPES.contains
      (splitext (Anyalize.pyLower f.name)).2
  · rw [if_pos hext] at hx
    injection hx with hx
    rw [process_image_eq] at hx
    by_cases h1 : f.decodeOk <;> by_cases h2 : f.saveOk <;>
      by_cases h3 : f.metaOk <;>
      simp only [h1, h2, h3, if_true, if_false, Bool.false_eq_true] at hx <;>
      injection hx with hb hs2 <;> subst hs2
    · exact ⟨[], Or.inl rfl, by simp, fun _ =>
        ⟨rfl, ⟨pid, outputFileName pid idx,
          (splitext (Anyalize.pyLower f.name)).2, 1024, 768⟩, rfl, rfl, rfl,
          rfl⟩,
        fun hfalse => absurd (hb.trans hfalse) (by simp)⟩
    · exact ⟨[], Or.inl rfl, by simp, fun htrue =>
        absurd (hb.trans htrue) (by simp), fun _ =>
        ⟨rfl, Or.inr rfl⟩⟩
    · exact ⟨[], Or.inl rfl, by simp, fun htrue =>
        absurd (hb.trans htrue) (by simp), fun _ => ⟨rfl, Or.inl rfl⟩⟩
    · exact ⟨[], Or.inl rfl, by simp, fun htrue =>
        absurd (hb.trans htrue) (by simp), fun _ => ⟨rfl, Or.inl rfl⟩⟩
    · exact ⟨[], Or.inl rfl, by simp, fun htrue =>
        absurd (hb.trans htrue) (by simp), fun _ => ⟨rfl, Or.inl rfl⟩⟩
    · exact ⟨[], Or.inl rfl, by simp, fun htrue =>
        absurd (hb.trans htrue) (by simp), fun _ => ⟨rfl, Or.inl rfl⟩⟩
    · exact ⟨[], Or.inl rfl, by simp, fun htrue =>
        absurd (hb.trans htrue) (by simp), fun _ => ⟨rfl, Or.inl rfl⟩⟩
    · exact ⟨[], Or.inl rfl, by simp, fun htrue =>
        absurd (hb.trans htrue) (by simp), fun _ => ⟨rfl, Or.inl rfl⟩⟩
  · rw [if_neg hext] at hx
    unfold convert_to_supported_format at hx
    cases ho : f.openOk with
    | ok =>
      rw [ho] at hx
      by_cases hc : f.convSaveOk
      · rw [if_pos hc] at hx
        injection hx with hx
        rw [process_image_eq] at hx
        by_cases h1 : f.decodeOk <;> by_cases h2 : f.saveOk <;>
          by_cases h3 : f.metaOk <;>
          simp only [h1, h2, h3, if_true, if_false, Bool.false_eq_true] at hx <;>
          injection hx with hb hs2 <;> subst hs2
        · exact ⟨[(splitext f.name).1 ++ ".png"], Or.inr rfl, by simp,
            fun _ => ⟨by simp, ⟨pid, outputFileName pid idx, ".png", 1024,
              768⟩, by simp, rfl, rfl, rfl⟩,
            fun hfalse => absurd (hb.trans hfalse) (by simp)⟩
        · exact ⟨[(splitext f.name).1 ++ ".png"], Or.inr rfl, by simp,
            fun htrue => absurd (hb.trans htrue) (by simp),
            fun _ => ⟨by simp, Or.inr (by simp)⟩⟩
        · exact ⟨[(splitext f.name).1 ++ ".png"], Or.inr rfl, by simp,
            fun htrue => absurd (hb.trans htrue) (by simp),
            fun _ => ⟨by simp, Or.inl (by simp)⟩⟩
        · exact ⟨[(splitext f.name).1 ++ ".png"], Or.inr rfl, by simp,
            fun htrue => absurd (hb.trans htrue) (by simp),
            fun _ => ⟨by simp, Or.inl (by simp)⟩⟩
        · exact ⟨[(splitext f.name).1 ++ ".png"], Or.inr rfl, by simp,
            fun htrue => absurd (hb.trans htrue) (by simp),
            fun _ => ⟨by simp, Or.inl (by simp)⟩⟩
        · exact ⟨[(splitext f.name).1 ++ ".png"], Or.inr rfl, by simp,
            fun htrue => absurd (hb.trans htrue) (by simp),
            fun _ => ⟨by simp, Or.inl (by simp)⟩⟩
        · exact ⟨[(splitext f.name).1 ++ ".png"], Or.inr rfl, by simp,
            fun htrue => absurd (hb.trans htrue) (by simp),
            fun _ => ⟨by simp, Or.inl (by simp)⟩⟩
        · exact ⟨[(splitext f.name).1 ++ ".png"], Or.inr rfl, by simp,
            fun htrue => absurd (hb.trans htrue) (by simp),
            fun _ => ⟨by simp, Or.inl (by simp)⟩⟩
      · rw [if_neg hc] at hx
        cases hx
    | unidentified =>
      rw [ho] at hx
      cases hx
    | otherError =>
      rw [ho] at hx
      cases hx

/-- Witness for the amended C9 at the concrete converting GIF, applying the
contract to the computed outcome. -/
theorem c9_witness :
    ∃ interm : List String,
      (interm = [] ∨ interm = [(splitext convGif.name).1 ++ ".png"]) ∧
      (⟨["photo.png"], [⟨"Product_00001_Image_01.png", 1024, 768⟩],
        [⟨1, "Product_00001_Image_01.png", ".png", 1024, 768⟩]⟩ :
          NormState).srcFiles = normInit.srcFiles ++ interm ∧
      (true = true →
        (⟨["photo.png"], [⟨"Product_00001_Image_01.png", 1024, 768⟩],
          [⟨1, "Product_00001_Image_01.png", ".png", 1024, 768⟩]⟩ :
            NormState).outFiles = normInit.outFiles ++
          [⟨outputFileName 1 1, 1024, 768⟩] ∧
        ∃ r, (⟨["photo.png"], [⟨"Product_00001_Image_01.png", 1024, 768⟩],
          [⟨1, "Product_00001_Image_01.png", ".png", 1024, 768⟩]⟩ :
            NormState).ledger = normInit.ledger ++ [r] ∧
          r.fileName = outputFileName 1 1 ∧ r.width = 1024 ∧
          r.height = 768) ∧
      (true = false →
        (⟨["photo.png"], [⟨"Product_00001_Image_01.png", 1024, 768⟩],
          [⟨1, "Product_00001_Image_01.png", ".png", 1024, 768⟩]⟩ :
            NormState).ledger = normInit.ledger ∧
        ((⟨["photo.png"], [⟨"Product_00001_Image_01.png", 1024, 768⟩],
          [⟨1, "Product_00001_Image_01.png", ".png", 1024, 768⟩]⟩ :
            NormState).outFiles = normInit.outFiles ∨
          (⟨["photo.png"], [⟨"Product_00001_Image_01.png", 1024, 768⟩],
            [⟨1, "Product_00001_Image_01.png", ".png", 1024, 768⟩]⟩ :
              NormState).outFiles = normInit.outFiles ++
            [⟨outputFileName 1 1, 1024, 768⟩])) :=
  (c9_amended_per_image_contract convGif 1 1 normInit).2 true
    ⟨["photo.png"], [⟨"Product_00001_Image_01.png", 1024, 768⟩],
     [⟨1, "Product_00001_Image_01.png", ".png", 1024, 768⟩]⟩ rfl

end ImgProc
